import Mathlib

/-
  Verification of the btkbdd keyboard/HID logic (keyb.c).

  The definitions below are a shallow embedding of keyb.c: the rollover
  scan loop of input_event, the frame interpreter btooth_command, the LED
  writer set_leds, the device-setup routine input_open and the session
  entry point.  I/O (read/write/ioctl results) is passed in explicitly;
  writes performed by the code are collected as traces.
-/

namespace Btkbdd

/- Constants from linux/input.h (system header). -/

def EV_KEY : Nat := 0x01

def EV_LED : Nat := 0x11

def EV_VERSION : Nat := 0x010001

def LED_NUML : Nat := 0x00

def LED_CAPSL : Nat := 0x01

def LED_SCROLLL : Nat := 0x02

def LED_COMPOSE : Nat := 0x03

def LED_KANA : Nat := 0x04

def KEY_LEFTCTRL : Nat := 29

def KEY_LEFTSHIFT : Nat := 42

def KEY_RIGHTSHIFT : Nat := 54

def KEY_LEFTALT : Nat := 56

def KEY_RIGHTCTRL : Nat := 97

def KEY_RIGHTALT : Nat := 100

/- Constants from bluetooth/hidp.h (BlueZ header). -/

def HIDP_HEADER_TRANS_MASK : Nat := 0xf0

def HIDP_TRANS_HANDSHAKE : Nat := 0x00

def HIDP_TRANS_SET_PROTOCOL : Nat := 0x70

def HIDP_TRANS_DATA : Nat := 0xa0

def HIDP_HSHK_SUCCESSFUL : Nat := 0x00

def HIDP_HSHK_ERR_UNKNOWN : Nat := 0x0e

def HIDP_DATA_RTYPE_INPUT : Nat := 0x01

def HIDP_DEFAULT_MTU : Nat := 48

/-- Modelled from the spec: the LED bitmask constants come from the
repository header hid.h, which is not under src/.  The spec fixes the bit
order Num, Caps, Scroll, Compose, Kana, i.e. bits 0..4. -/
def HIDP_NUML : Nat := 0x01

/-- Modelled from the spec: see HIDP_NUML. -/
def HIDP_CAPSL : Nat := 0x02

/-- Modelled from the spec: see HIDP_NUML. -/
def HIDP_SCROLLL : Nat := 0x04

/-- Modelled from the spec: see HIDP_NUML. -/
def HIDP_COMPOSE : Nat := 0x08

/-- Modelled from the spec: see HIDP_NUML. -/
def HIDP_KANA : Nat := 0x10

/-- Modelled from the spec: the modifier bitmask constants come from the
repository header hid.h, which is not under src/.  The spec only says
"bits for Left/Right Ctrl/Shift/Alt"; the standard HID boot-protocol bit
assignment is used.  No claim depends on the concrete values, only on
their being nonzero. -/
def HIDP_LEFTCTRL : Nat := 0x01

/-- Modelled from the spec: see HIDP_LEFTCTRL. -/
def HIDP_LEFTSHIFT : Nat := 0x02

/-- Modelled from the spec: see HIDP_LEFTCTRL. -/
def HIDP_LEFTALT : Nat := 0x04

/-- Modelled from the spec: see HIDP_LEFTCTRL. -/
def HIDP_RIGHTCTRL : Nat := 0x10

/-- Modelled from the spec: see HIDP_LEFTCTRL. -/
def HIDP_RIGHTSHIFT : Nat := 0x20

/-- Modelled from the spec: see HIDP_LEFTCTRL. -/
def HIDP_RIGHTALT : Nat := 0x40

/-- sizeof(struct input_event) on 64-bit Linux. -/
def sizeof_input_event : Int := 24

/- Data model: struct key_report and struct status of keyb.c.
   The 6 key slots are a list of bytes (length 6 throughout). -/

structure KeyReport where
  type : Nat
  report : Nat
  mods : Nat
  reserved : Nat
  key : List Nat
deriving DecidableEq, Repr

structure Status where
  leds : Nat
  report : KeyReport
deriving DecidableEq, Repr

/-- One evdev record as read from the input device. -/
structure InputEvent where
  type : Nat
  code : Nat
  value : Nat
deriving DecidableEq, Repr

/- The rollover scan loop of input_event (keyb.c lines 185-201):

     for (i = 0; i < 6; i++) {
       if (key[i] == code) key[i] = 0;
       if (event.value && key[i] == 0) { key[i] = code; break; }
       if (i < 5 && key[i] == 0) { key[i] = key[i+1]; key[i+1] = 0; }
     }

   Embedded as a recursion over the slot list.  When the loop shifts
   key[i] := key[i+1]; key[i+1] := 0, the next iteration looks at the
   just-vacated slot, so the recursive call receives 0 consed onto the
   untouched tail.  The fuel argument (always the list length at the
   call site) makes the recursion structural. -/

def keyScanAux (pressed : Bool) (code : Nat) : Nat → List Nat → List Nat
  | _, [] => []
  | 0, l => l
  | fuel + 1, k :: rest =>
    let k1 := if k = code then 0 else k
    if pressed ∧ k1 = 0 then code :: rest
    else if k1 = 0 then
      match rest with
      | [] => [0]
      | r :: rs => r :: keyScanAux pressed code fuel (0 :: rs)
    else k1 :: keyScanAux pressed code fuel rest

/-- The rollover update applied to the key-slot list. -/
def keyScan (pressed : Bool) (code : Nat) (l : List Nat) : List Nat :=
  keyScanAux pressed code l.length l

/-- Left-packedness of the slot list: no empty (0) slot precedes a
non-empty one. -/
def allZero : List Nat → Bool
  | [] => true
  | k :: rest => k == 0 && allZero rest

def leftPacked : List Nat → Bool
  | [] => true
  | k :: rest => if k = 0 then allZero rest else leftPacked rest

/-- Modifier bit assigned to an event code (the switch in keyb.c
lines 161-168); 0 for non-modifier keys. -/
def modOf (code : Nat) : Nat :=
  if code = KEY_LEFTCTRL then HIDP_LEFTCTRL
  else if code = KEY_LEFTSHIFT then HIDP_LEFTSHIFT
  else if code = KEY_LEFTALT then HIDP_LEFTALT
  else if code = KEY_RIGHTCTRL then HIDP_RIGHTCTRL
  else if code = KEY_RIGHTSHIFT then HIDP_RIGHTSHIFT
  else if code = KEY_RIGHTALT then HIDP_RIGHTALT
  else 0

/-- Classification of the read at the top of input_event (keyb.c
lines 141-150): -1 is the read-error branch (perror), sizeof(event)
proceeds, anything else is the "Badly sized read" branch. -/
inductive ReadOutcome where
  | readErr
  | malformed
  | proceed
deriving DecidableEq, Repr

def classify_input_read (size : Int) : ReadOutcome :=
  if size = -1 then ReadOutcome.readErr
  else if size = sizeof_input_event then ReadOutcome.proceed
  else ReadOutcome.malformed

/-- input_event (keyb.c lines 131-219).  The read result is passed in as
the returned size plus the record (meaningful when the size is
sizeof_input_event); linux2hid is the translation table from the header
linux2hid.h (passed as a function); writeOk tells whether the report
write to the interrupt channel succeeds.  Returns the new status and the
C return value. -/
def input_event (linux2hid : Nat → Nat) (st : Status) (size : Int)
    (e : InputEvent) (writeOk : Bool) : Status × Int :=
  if size = -1 then (st, -1)
  else if size ≠ sizeof_input_event then (st, -1)
  else if e.type ≠ EV_KEY then (st, 0)
  else if 256 ≤ e.code then (st, 0)
  else
    let mod := modOf e.code
    let st1 :=
      if mod ≠ 0 then
        if e.value ≠ 0 then
          { st with report := { st.report with mods := st.report.mods ||| mod } }
        else
          { st with report := { st.report with mods := st.report.mods &&& (255 ^^^ mod) } }
      else
        { st with report := { st.report with
            key := keyScan (e.value ≠ 0) (linux2hid e.code) st.report.key } }
    if writeOk then (st1, 0) else (st1, -1)

/-- set_leds (keyb.c lines 48-77): the trace of (LED code, value) writes
to the input device, in program order. -/
def set_leds (leds : Nat) : List (Nat × Nat) :=
  [ (LED_NUML,    if leds &&& HIDP_NUML = 0 then 0 else 1),
    (LED_CAPSL,   if leds &&& HIDP_CAPSL = 0 then 0 else 1),
    (LED_SCROLLL, if leds &&& HIDP_SCROLLL = 0 then 0 else 1),
    (LED_COMPOSE, if leds &&& HIDP_COMPOSE = 0 then 0 else 1),
    (LED_KANA,    if leds &&& HIDP_KANA = 0 then 0 else 1) ]

/-- Output of one btooth_command call: the status (the function receives
a pointer to it and never writes through it), the C return value, the
handshake bytes written back to the socket, and the LED writes issued to
the input device. -/
structure BtOut where
  status : Status
  ret : Int
  replies : List Nat
  ledWrites : List (Nat × Nat)
deriving DecidableEq, Repr

/-- btooth_command (keyb.c lines 80-128).  The read result is `none` for
a -1 read and `some buf` for a read of buf.length bytes. -/
def btooth_command (st : Status) (res : Option (List Nat)) : BtOut :=
  match res with
  | none => ⟨st, -1, [], []⟩
  | some buf =>
    if buf.length = 0 then ⟨st, -1, [], []⟩
    else
      let trans := buf.headD 0 &&& HIDP_HEADER_TRANS_MASK
      if trans = HIDP_TRANS_SET_PROTOCOL then
        ⟨st, 0, [HIDP_TRANS_HANDSHAKE ||| HIDP_HSHK_SUCCESSFUL], []⟩
      else if trans = HIDP_TRANS_DATA ∧ (buf.length = 3 ∨ buf.length = 2) then
        ⟨st, 0, [], set_leds (buf.getD (buf.length - 1) 0)⟩
      else
        ⟨st, 0, [HIDP_TRANS_HANDSHAKE ||| HIDP_HSHK_ERR_UNKNOWN], []⟩

/-- Environment of one input_open call (keyb.c lines 222-271): which of
the open and the four ioctl steps succeed, and the values the ioctls
report. -/
structure InputOpenEnv where
  openOk : Bool
  versionIoctlOk : Bool
  version : Nat
  featuresIoctlOk : Bool
  features : Nat
  grabOk : Bool
  setRepOk : Bool
deriving DecidableEq, Repr

/-- input_open (keyb.c lines 222-271).  Returns whether it succeeded and
how many close(2) calls it performed before returning.  The C code
contains no close call on any path. -/
def input_open (env : InputOpenEnv) : Bool × Nat :=
  if ¬ env.openOk then (false, 0)
  else if ¬ env.versionIoctlOk then (false, 0)
  else if env.version >>> 16 ≠ EV_VERSION >>> 16 then (false, 0)
  else if ¬ env.featuresIoctlOk then (false, 0)
  else if env.features &&& EV_KEY = 0 then (false, 0)
  else if ¬ env.grabOk then (false, 0)
  else if ¬ env.setRepOk then (false, 0)
  else (true, 0)

/- The session loop (keyb.c lines 287-425).  Loop-relevant state: the
keyboard status and which of the four sockets are connected / still
listening.  Each poll readiness notification is a LoopStep carrying the
outcomes of the external calls the handler makes. -/

structure LoopState where
  status : Status
  control : Bool
  intr : Bool
  scontrol : Bool
  sintr : Bool
deriving DecidableEq, Repr

inductive LoopStep where
  | inputReady (size : Int) (e : InputEvent) (connectCtrlOk : Bool)
      (connectIntrOk : Bool) (writeOk : Bool)
  | controlReady (res : Option (List Nat))
  | intrReady (res : Option (List Nat))
  | scontrolReady (acceptOk : Bool)
  | sintrReady (acceptOk : Bool)

/-- One iteration of the poll loop body: the new state and whether the
loop continues (false = a break was taken). -/
def loopStep (linux2hid : Nat → Nat) (targetAny : Bool) (ls : LoopState) :
    LoopStep → LoopState × Bool
  | LoopStep.inputReady size e cOk iOk wOk =>
    if ¬ ls.control then
      if targetAny then (ls, false)
      else if ¬ cOk then (ls, false)
      else if ¬ iOk then ({ ls with control := true }, false)
      else
        let ls1 := { ls with control := true, intr := true }
        let r := input_event linux2hid ls1.status size e wOk
        (⟨r.1, ls1.control, ls1.intr, ls1.scontrol, ls1.sintr⟩, r.2 ≠ -1)
    else
      let r := input_event linux2hid ls.status size e wOk
      (⟨r.1, ls.control, ls.intr, ls.scontrol, ls.sintr⟩, r.2 ≠ -1)
  | LoopStep.controlReady res =>
    let r := btooth_command ls.status res
    (⟨r.status, ls.control, ls.intr, ls.scontrol, ls.sintr⟩, r.ret ≠ -1)
  | LoopStep.intrReady res =>
    let r := btooth_command ls.status res
    (⟨r.status, ls.control, ls.intr, ls.scontrol, ls.sintr⟩, r.ret ≠ -1)
  | LoopStep.scontrolReady ok =>
    if ok then ({ ls with control := true, scontrol := false }, true)
    else (ls, false)
  | LoopStep.sintrReady ok =>
    if ¬ ls.control then (ls, false)
    else if ok then ({ ls with intr := true, sintr := false }, true)
    else (ls, false)

/-- Run the poll loop on a list of readiness notifications until a break
or the end of the list (the end models poll returning non-positive). -/
def runLoop (linux2hid : Nat → Nat) (targetAny : Bool) :
    LoopState → List LoopStep → LoopState
  | ls, [] => ls
  | ls, s :: rest =>
    let r := loopStep linux2hid targetAny ls s
    if r.2 then runLoop linux2hid targetAny r.1 rest else r.1

/-- Keyboard state initialization at session start (keyb.c
lines 299-307). -/
def initStatus : Status :=
  { leds := 0,
    report :=
      { type := HIDP_TRANS_DATA ||| HIDP_DATA_RTYPE_INPUT, report := 1,
        mods := 0, reserved := 0, key := [0, 0, 0, 0, 0, 0] } }

def initLoopState : LoopState :=
  { status := initStatus, control := false, intr := false,
    scontrol := true, sintr := true }

/-- A keyboard state with the given key slots (used to instantiate the
general theorems at concrete states). -/
def keyStatus (ks : List Nat) : Status :=
  { leds := 0,
    report :=
      { type := HIDP_TRANS_DATA ||| HIDP_DATA_RTYPE_INPUT, report := 1,
        mods := 0, reserved := 0, key := ks } }

/-- session (keyb.c lines 287-425).  openOk, sintrOk, scontrolOk are the
outcomes of input_open and the two l2cap_listen calls.  Returns the C
return value as a Bool (0 = false, 1 = true) and the final loop state. -/
def session (openOk sintrOk scontrolOk targetAny : Bool)
    (linux2hid : Nat → Nat) (steps : List LoopStep) : Bool × LoopState :=
  if ¬ openOk then (false, initLoopState)
  else if ¬ sintrOk then (false, initLoopState)
  else if ¬ scontrolOk then (false, initLoopState)
  else (true, runLoop linux2hid targetAny initLoopState steps)

/-- Fold a list of (code, value) key events into the status through
input_event, each as a well-sized EV_KEY read with a successful report
write. -/
def applyEvents (linux2hid : Nat → Nat) (st : Status)
    (evs : List (Nat × Nat)) : Status :=
  evs.foldl
    (fun s p =>
      (input_event linux2hid s sizeof_input_event ⟨EV_KEY, p.1, p.2⟩ true).1)
    st

/- Step equations for keyScanAux, matching the four ways one loop
iteration can go. -/

theorem keyScanAux_place (c n k : Nat) (rest : List Nat) (hk : k = c ∨ k = 0) :
    keyScanAux true c (n + 1) (k :: rest) = c :: rest := by
  rcases hk with rfl | rfl
  · simp [keyScanAux]
  · simp [keyScanAux]

theorem keyScanAux_pass (p : Bool) (c n k : Nat) (rest : List Nat)
    (hkc : k ≠ c) (hk0 : k ≠ 0) :
    keyScanAux p c (n + 1) (k :: rest) = k :: keyScanAux p c n rest := by
  simp [keyScanAux, hkc, hk0]

theorem keyScanAux_clear_nil (c n k : Nat) (hk : k = c ∨ k = 0) :
    keyScanAux false c (n + 1) [k] = [0] := by
  rcases hk with rfl | rfl
  · simp [keyScanAux]
  · simp [keyScanAux]

theorem keyScanAux_clear_cons (c n k r : Nat) (rs : List Nat) (hk : k = c ∨ k = 0) :
    keyScanAux false c (n + 1) (k :: r :: rs) = r :: keyScanAux false c n (0 :: rs) := by
  rcases hk with rfl | rfl
  · simp [keyScanAux]
  · simp [keyScanAux]

/-- Once a slot has been cleared on a release, the rest of the loop only
shifts: the tail moves forward one slot and a 0 is appended. -/
theorem keyScanAux_shift (c : Nat) :
    ∀ (fuel : Nat) (rs : List Nat), rs.length + 1 ≤ fuel →
      keyScanAux false c fuel (0 :: rs) = rs ++ [0] := by
  intro fuel
  induction fuel with
  | zero => intro rs h; simp at h
  | succ n ih =>
    intro rs h
    cases rs with
    | nil => exact keyScanAux_clear_nil c n 0 (Or.inr rfl)
    | cons r rs2 =>
      rw [keyScanAux_clear_cons c n 0 r rs2 (Or.inr rfl),
        ih rs2 (by simp at h; omega)]
      rfl

theorem keyScanAux_length (p : Bool) (c : Nat) :
    ∀ (fuel : Nat) (l : List Nat), l.length ≤ fuel →
      (keyScanAux p c fuel l).length = l.length := by
  intro fuel
  induction fuel with
  | zero =>
    intro l h
    have hl : l = [] := List.eq_nil_of_length_eq_zero (Nat.le_zero.mp h)
    subst hl; rfl
  | succ n ih =>
    intro l h
    cases l with
    | nil => rfl
    | cons k rest =>
      by_cases h1 : k ≠ c ∧ k ≠ 0
      · rw [keyScanAux_pass p c n k rest h1.1 h1.2]
        simp [ih rest (by simp at h; omega)]
      · have hk : k = c ∨ k = 0 := by tauto
        cases p with
        | false =>
          cases rest with
          | nil => rw [keyScanAux_clear_nil c n k hk]; rfl
          | cons r rs =>
            rw [keyScanAux_clear_cons c n k r rs hk,
              keyScanAux_shift c n rs (by simp at h; omega)]
            simp
        | true => rw [keyScanAux_place c n k rest hk]; rfl

theorem keyScan_length (p : Bool) (c : Nat) (l : List Nat) :
    (keyScan p c l).length = l.length :=
  keyScanAux_length p c l.length l (Nat.le_refl _)

/- Left-packedness helpers. -/

theorem allZero_mem (l : List Nat) (h : allZero l = true) :
    ∀ x ∈ l, x = 0 := by
  induction l with
  | nil => intro x hx; simp at hx
  | cons k rest ih =>
    simp [allZero] at h
    intro x hx
    rcases List.mem_cons.mp hx with rfl | hx2
    · exact h.1
    · exact ih h.2 x hx2

theorem allZero_of_forall (l : List Nat) (h : ∀ x ∈ l, x = 0) :
    allZero l = true := by
  induction l with
  | nil => rfl
  | cons k rest ih =>
    simp [allZero]
    exact ⟨h k (List.mem_cons_self k rest),
      ih (fun x hx => h x (List.mem_cons_of_mem k hx))⟩

theorem lp_of_allZero (l : List Nat) (h : allZero l = true) :
    leftPacked l = true := by
  induction l with
  | nil => rfl
  | cons k rest ih =>
    simp [allZero] at h
    simp [leftPacked, h.1]
    exact allZero_of_forall rest (allZero_mem rest h.2)

theorem allZero_append_zero (l : List Nat) (h : allZero l = true) :
    allZero (l ++ [0]) = true := by
  apply allZero_of_forall
  intro x hx
  rcases List.mem_append.mp hx with hx1 | hx2
  · exact allZero_mem l h x hx1
  · simpa using hx2

theorem lp_cons_ne (k : Nat) (rest : List Nat) (hk : k ≠ 0) :
    leftPacked (k :: rest) = leftPacked rest := by
  simp [leftPacked, hk]

theorem lp_cons_zero (rest : List Nat) :
    leftPacked (0 :: rest) = allZero rest := by
  simp [leftPacked]

theorem lp_append_zero (l : List Nat) (h : leftPacked l = true) :
    leftPacked (l ++ [0]) = true := by
  induction l with
  | nil => rfl
  | cons k rest ih =>
    by_cases hk : k = 0
    · subst hk
      rw [lp_cons_zero] at h
      show leftPacked (0 :: (rest ++ [0])) = true
      rw [lp_cons_zero]
      exact allZero_append_zero rest h
    · rw [lp_cons_ne k rest hk] at h
      show leftPacked (k :: (rest ++ [0])) = true
      rw [lp_cons_ne k (rest ++ [0]) hk]
      exact ih h

theorem lp_cons_tail (k : Nat) (rest : List Nat)
    (h : leftPacked (k :: rest) = true) : leftPacked rest = true := by
  by_cases hk : k = 0
  · subst hk
    rw [lp_cons_zero] at h
    exact lp_of_allZero rest h
  · rwa [lp_cons_ne k rest hk] at h

/- Preservation of left-packedness by the scan loop. -/

theorem keyScanAux_lp_press (c : Nat) :
    ∀ (fuel : Nat) (l : List Nat), l.length ≤ fuel →
      leftPacked l = true → leftPacked (keyScanAux true c fuel l) = true := by
  intro fuel
  induction fuel with
  | zero =>
    intro l h hlp
    have hl : l = [] := List.eq_nil_of_length_eq_zero (Nat.le_zero.mp h)
    subst hl; rfl
  | succ n ih =>
    intro l h hlp
    cases l with
    | nil => rfl
    | cons k rest =>
      by_cases h1 : k ≠ c ∧ k ≠ 0
      · rw [keyScanAux_pass true c n k rest h1.1 h1.2]
        rw [lp_cons_ne k rest h1.2] at hlp
        rw [lp_cons_ne k _ h1.2]
        exact ih rest (by simp at h; omega) hlp
      · have hk : k = c ∨ k = 0 := by tauto
        rw [keyScanAux_place c n k rest hk]
        by_cases hc : c = 0
        · subst hc
          have hk0 : k = 0 := by tauto
          subst hk0
          exact hlp
        · rw [lp_cons_ne c rest hc]
          exact lp_cons_tail k rest hlp

theorem keyScanAux_lp_release (c : Nat) :
    ∀ (fuel : Nat) (l : List Nat), l.length ≤ fuel →
      leftPacked l = true → leftPacked (keyScanAux false c fuel l) = true := by
  intro fuel
  induction fuel with
  | zero =>
    intro l h hlp
    have hl : l = [] := List.eq_nil_of_length_eq_zero (Nat.le_zero.mp h)
    subst hl; rfl
  | succ n ih =>
    intro l h hlp
    cases l with
    | nil => rfl
    | cons k rest =>
      by_cases h1 : k ≠ c ∧ k ≠ 0
      · rw [keyScanAux_pass false c n k rest h1.1 h1.2]
        rw [lp_cons_ne k rest h1.2] at hlp
        rw [lp_cons_ne k _ h1.2]
        exact ih rest (by simp at h; omega) hlp
      · have hk : k = c ∨ k = 0 := by tauto
        cases rest with
        | nil => rw [keyScanAux_clear_nil c n k hk]; rfl
        | cons r rs =>
          rw [keyScanAux_clear_cons c n k r rs hk,
            keyScanAux_shift c n rs (by simp at h; omega)]
          by_cases hk0 : k = 0
          · subst hk0
            rw [lp_cons_zero] at hlp
            simp [allZero] at hlp
            have hr : r = 0 := hlp.1
            subst hr
            rw [lp_cons_zero]
            exact allZero_append_zero rs hlp.2
          · rw [lp_cons_ne k _ hk0] at hlp
            have : leftPacked ((r :: rs) ++ [0]) = true := lp_append_zero _ hlp
            simpa using this

theorem keyScan_leftPacked (p : Bool) (c : Nat) (l : List Nat)
    (hlp : leftPacked l = true) : leftPacked (keyScan p c l) = true := by
  cases p with
  | false => exact keyScanAux_lp_release c l.length l (Nat.le_refl _) hlp
  | true => exact keyScanAux_lp_press c l.length l (Nat.le_refl _) hlp

/-- Pressing a code already present in a left-packed buffer leaves the
buffer unchanged (the matching slot is cleared and refilled). -/
theorem keyScanAux_repress (c : Nat) :
    ∀ (fuel : Nat) (l : List Nat), l.length ≤ fuel →
      leftPacked l = true → c ∈ l → keyScanAux true c fuel l = l := by
  intro fuel
  induction fuel with
  | zero =>
    intro l h _ _
    have hl : l = [] := List.eq_nil_of_length_eq_zero (Nat.le_zero.mp h)
    subst hl; rfl
  | succ n ih =>
    intro l h hlp hmem
    cases l with
    | nil => rfl
    | cons k rest =>
      by_cases hkc : k = c
      · rw [keyScanAux_place c n k rest (Or.inl hkc), hkc]
      · by_cases hk0 : k = 0
        · subst hk0
          rw [lp_cons_zero] at hlp
          have hc0 : c = 0 := by
            rcases List.mem_cons.mp hmem with hc | hc
            · exact hc
            · exact allZero_mem rest hlp c hc
          exact absurd hc0.symm hkc
        · rw [keyScanAux_pass true c n k rest (fun hx => hkc hx) hk0]
          rw [lp_cons_ne k rest hk0] at hlp
          have hmem2 : c ∈ rest := by
            rcases List.mem_cons.mp hmem with hc | hc
            · exact absurd hc.symm hkc
            · exact hc
          rw [ih rest (by simp at h; omega) hlp hmem2]

/-- Scanning a buffer whose slots are all occupied by codes different
from c changes nothing (for a press this is the overflow drop). -/
theorem keyScanAux_full (p : Bool) (c : Nat) :
    ∀ (fuel : Nat) (l : List Nat), l.length ≤ fuel →
      (∀ x ∈ l, x ≠ 0 ∧ x ≠ c) → keyScanAux p c fuel l = l := by
  intro fuel
  induction fuel with
  | zero =>
    intro l h _
    have hl : l = [] := List.eq_nil_of_length_eq_zero (Nat.le_zero.mp h)
    subst hl; rfl
  | succ n ih =>
    intro l h hall
    cases l with
    | nil => rfl
    | cons k rest =>
      have hk := hall k (List.mem_cons_self k rest)
      rw [keyScanAux_pass p c n k rest hk.2 hk.1]
      rw [ih rest (by simp at h; omega)
        (fun x hx => hall x (List.mem_cons_of_mem k hx))]

/-- Releasing the code held at some slot of a buffer whose earlier slots
are occupied by other codes: the slot is cleared and every later slot
moves forward one position, a 0 entering at the end. -/
theorem keyScanAux_release_split (c : Nat) :
    ∀ (a : List Nat) (fuel : Nat) (b : List Nat),
      (a ++ c :: b).length ≤ fuel →
      (∀ x ∈ a, x ≠ c ∧ x ≠ 0) →
      keyScanAux false c fuel (a ++ c :: b) = a ++ (b ++ [0]) := by
  intro a
  induction a with
  | nil =>
    intro fuel b h _
    cases fuel with
    | zero => simp at h
    | succ n =>
      cases b with
      | nil => exact keyScanAux_clear_nil c n c (Or.inl rfl)
      | cons r rs =>
        rw [List.nil_append, keyScanAux_clear_cons c n c r rs (Or.inl rfl),
          keyScanAux_shift c n rs (by simp at h; omega)]
        rfl
  | cons x a2 ih =>
    intro fuel b h ha
    cases fuel with
    | zero => simp at h
    | succ n =>
      have hx := ha x (List.mem_cons_self x a2)
      rw [List.cons_append, keyScanAux_pass false c n x (a2 ++ c :: b) hx.1 hx.2]
      rw [ih n b (by simp at h ⊢; omega)
        (fun y hy => ha y (List.mem_cons_of_mem x hy))]
      rfl

/- Unfolding lemmas for input_event and btooth_command. -/

theorem input_event_nonmod (l2h : Nat → Nat) (st : Status) (code v : Nat)
    (w : Bool) (hm : modOf code = 0) (hc : code < 256) :
    input_event l2h st sizeof_input_event ⟨EV_KEY, code, v⟩ w =
      ({ st with report := { st.report with
          key := keyScan (decide (v ≠ 0)) (l2h code) st.report.key } },
       if w then 0 else -1) := by
  have h256 : ¬ 256 ≤ code := by omega
  simp [input_event, hm, h256, sizeof_input_event]
  split <;> rfl

theorem input_event_highcode (l2h : Nat → Nat) (st : Status) (code v : Nat)
    (w : Bool) (hc : 256 ≤ code) :
    input_event l2h st sizeof_input_event ⟨EV_KEY, code, v⟩ w = (st, 0) := by
  simp [input_event, hc, sizeof_input_event]

theorem input_event_leds (l2h : Nat → Nat) (st : Status) (size : Int)
    (e : InputEvent) (w : Bool) :
    ((input_event l2h st size e w).1).leds = st.leds := by
  unfold input_event
  repeat' first
  | rfl
  | split
  | dsimp only

theorem btooth_command_status (st : Status) (res : Option (List Nat)) :
    (btooth_command st res).status = st := by
  cases res with
  | none => rfl
  | some buf =>
    unfold btooth_command
    repeat' first
    | rfl
    | split
    | dsimp only

/-- Each LED value written by set_leds is the corresponding bit of the
payload byte. -/
theorem led_bit (b i m : Nat) (hm : m = 2 ^ i) :
    (if b &&& m = 0 then 0 else 1) = if b.testBit i then 1 else 0 := by
  subst hm
  rw [Nat.and_two_pow]
  have h2 : (2 : Nat) ^ i ≠ 0 := (Nat.two_pow_pos i).ne'
  cases h : b.testBit i <;> simp [h, h2]

theorem applyEvents_cons (l2h : Nat → Nat) (st : Status) (p : Nat × Nat)
    (evs : List (Nat × Nat)) :
    applyEvents l2h st (p :: evs) =
      applyEvents l2h
        (input_event l2h st sizeof_input_event ⟨EV_KEY, p.1, p.2⟩ true).1
        evs := rfl

/-- The rollover invariant is preserved by any sequence of non-modifier
key events. -/
theorem applyEvents_inv (l2h : Nat → Nat) :
    ∀ (evs : List (Nat × Nat)) (st : Status),
      (∀ p ∈ evs, modOf p.1 = 0) →
      leftPacked st.report.key = true → st.report.key.length = 6 →
      leftPacked (applyEvents l2h st evs).report.key = true ∧
        (applyEvents l2h st evs).report.key.length = 6 := by
  intro evs
  induction evs with
  | nil => intro st _ hlp hlen; exact ⟨hlp, hlen⟩
  | cons p rest ih =>
    intro st hnm hlp hlen
    have hp : modOf p.1 = 0 := hnm p (List.mem_cons_self p rest)
    rw [applyEvents_cons]
    by_cases hc : p.1 < 256
    · rw [input_event_nonmod l2h st p.1 p.2 true hp hc]
      refine ih _ (fun q hq => hnm q (List.mem_cons_of_mem p hq)) ?_ ?_
      · exact keyScan_leftPacked _ _ _ hlp
      · rw [keyScan_length]; exact hlen
    · rw [input_event_highcode l2h st p.1 p.2 true (by omega)]
      exact ih st (fun q hq => hnm q (List.mem_cons_of_mem p hq)) hlp hlen

/- Loop-level auxiliary lemmas. -/

theorem loopStep_leds (l2h : Nat → Nat) (tAny : Bool) (ls : LoopState)
    (s : LoopStep) :
    ((loopStep l2h tAny ls s).1).status.leds = ls.status.leds := by
  cases s with
  | inputReady size e cOk iOk wOk =>
    simp only [loopStep]
    repeat' first
    | rfl
    | (exact input_event_leds _ _ _ _ _)
    | split
    | dsimp only
  | controlReady res =>
    simp only [loopStep]
    simp [btooth_command_status]
  | intrReady res =>
    simp only [loopStep]
    simp [btooth_command_status]
  | scontrolReady ok =>
    simp only [loopStep]
    repeat' first
    | rfl
    | split
    | dsimp only
  | sintrReady ok =>
    simp only [loopStep]
    repeat' first
    | rfl
    | split
    | dsimp only

theorem runLoop_leds (l2h : Nat → Nat) (tAny : Bool) :
    ∀ (steps : List LoopStep) (ls : LoopState),
      (runLoop l2h tAny ls steps).status.leds = ls.status.leds := by
  intro steps
  induction steps with
  | nil => intro ls; rfl
  | cons s rest ih =>
    intro ls
    unfold runLoop
    dsimp only
    split
    · rw [ih]; exact loopStep_leds l2h tAny ls s
    · exact loopStep_leds l2h tAny ls s

/- Claim theorems. -/

/-- C1: for every sequence of non-modifier key press/release events
applied to a KeyboardState whose six key slots start all empty, the slot
buffer remains left-packed after each event, and at most 6 distinct
non-modifier keys are held in it at any time. -/
theorem C1_rollover_invariant (l2h : Nat → Nat) (st : Status)
    (evs : List (Nat × Nat))
    (h0 : st.report.key = [0, 0, 0, 0, 0, 0])
    (hnm : ∀ p ∈ evs, modOf p.1 = 0) :
    leftPacked (applyEvents l2h st evs).report.key = true ∧
      ((applyEvents l2h st evs).report.key.filter
        (fun k => decide (k ≠ 0))).length ≤ 6 := by
  have h := applyEvents_inv l2h evs st hnm (by rw [h0]; rfl) (by rw [h0]; rfl)
  refine ⟨h.1, ?_⟩
  calc ((applyEvents l2h st evs).report.key.filter
        (fun k => decide (k ≠ 0))).length
      ≤ (applyEvents l2h st evs).report.key.length :=
        List.length_filter_le _ _
    _ = 6 := h.2

theorem C1_rollover_invariant_witness :
    leftPacked (applyEvents (fun n => n) initStatus
        [(30, 1), (31, 1), (30, 0)]).report.key = true ∧
      ((applyEvents (fun n => n) initStatus
        [(30, 1), (31, 1), (30, 0)]).report.key.filter
        (fun k => decide (k ≠ 0))).length ≤ 6 :=
  C1_rollover_invariant (fun n => n) initStatus [(30, 1), (31, 1), (30, 0)]
    (by rfl) (by decide)

/-- C2: pressing a usage code already held in some slot of a left-packed
buffer leaves the entire slot buffer unchanged. -/
theorem C2_repress_noop (l2h : Nat → Nat) (st : Status) (code v : Nat)
    (w : Bool)
    (hlp : leftPacked st.report.key = true)
    (hmem : l2h code ∈ st.report.key)
    (hnm : modOf code = 0) (hcode : code < 256) (hv : v ≠ 0) :
    ((input_event l2h st sizeof_input_event
        ⟨EV_KEY, code, v⟩ w).1).report.key = st.report.key := by
  rw [input_event_nonmod l2h st code v w hnm hcode]
  dsimp only
  rw [decide_eq_true hv]
  unfold keyScan
  exact keyScanAux_repress (l2h code) st.report.key.length st.report.key
    (Nat.le_refl _) hlp hmem

theorem C2_repress_noop_witness :
    ((input_event (fun _ => 4) (keyStatus [4, 0, 0, 0, 0, 0])
        sizeof_input_event ⟨EV_KEY, 30, 1⟩ true).1).report.key
      = [4, 0, 0, 0, 0, 0] :=
  C2_repress_noop (fun _ => 4) (keyStatus [4, 0, 0, 0, 0, 0])
    30 1 true (by decide) (by decide) (by decide) (by decide) (by decide)

/-- C3: pressing a 7th distinct code when all six slots are occupied by
distinct codes leaves the whole state (slots and modifier byte)
unchanged and returns without error. -/
theorem C3_overflow_drop (l2h : Nat → Nat) (st : Status) (code v : Nat)
    (hlen : st.report.key.length = 6)
    (hfull : ∀ x ∈ st.report.key, x ≠ 0 ∧ x ≠ l2h code)
    (hnodup : st.report.key.Nodup)
    (hnm : modOf code = 0) (hcode : code < 256) (hv : v ≠ 0) :
    (input_event l2h st sizeof_input_event ⟨EV_KEY, code, v⟩ true).1 = st ∧
      (input_event l2h st sizeof_input_event ⟨EV_KEY, code, v⟩ true).2 = 0 := by
  rw [input_event_nonmod l2h st code v true hnm hcode]
  constructor
  · dsimp only
    have hk : keyScan (decide (v ≠ 0)) (l2h code) st.report.key
        = st.report.key := by
      unfold keyScan
      exact keyScanAux_full _ _ _ _ (Nat.le_refl _) hfull
    rw [hk]
  · rfl

theorem C3_overflow_drop_witness :
    (input_event (fun _ => 10) (keyStatus [1, 2, 3, 4, 5, 6])
        sizeof_input_event ⟨EV_KEY, 30, 1⟩ true).1
      = keyStatus [1, 2, 3, 4, 5, 6] ∧
      (input_event (fun _ => 10) (keyStatus [1, 2, 3, 4, 5, 6])
        sizeof_input_event ⟨EV_KEY, 30, 1⟩ true).2 = 0 :=
  C3_overflow_drop (fun _ => 10) (keyStatus [1, 2, 3, 4, 5, 6])
    30 1 (by decide) (by decide) (by decide) (by decide) (by decide) (by decide)

/-- C4: releasing the usage code held at some slot of a left-packed
buffer clears that slot and shifts every later slot forward one
position; the remaining keys keep their relative order and the buffer
stays left-packed. -/
theorem C4_release_compaction (l2h : Nat → Nat) (st : Status) (code : Nat)
    (w : Bool) (a b : List Nat)
    (hlp : leftPacked st.report.key = true)
    (hsplit : st.report.key = a ++ (l2h code) :: b)
    (ha : ∀ x ∈ a, x ≠ l2h code ∧ x ≠ 0)
    (hocc : l2h code ≠ 0)
    (hnm : modOf code = 0) (hcode : code < 256) :
    ((input_event l2h st sizeof_input_event
        ⟨EV_KEY, code, 0⟩ w).1).report.key = a ++ (b ++ [0]) ∧
      leftPacked (a ++ (b ++ [0])) = true := by
  rw [input_event_nonmod l2h st code 0 w hnm hcode]
  dsimp only
  have hd : (decide ((0 : Nat) ≠ 0)) = false := by decide
  rw [hd]
  have hkey : keyScan false (l2h code) st.report.key = a ++ (b ++ [0]) := by
    unfold keyScan
    rw [hsplit]
    exact keyScanAux_release_split (l2h code) a _ b (Nat.le_refl _) ha
  refine ⟨hkey, ?_⟩
  rw [← hkey]
  exact keyScan_leftPacked false (l2h code) st.report.key hlp

theorem C4_release_compaction_witness :
    ((input_event (fun _ => 4) (keyStatus [4, 5, 0, 0, 0, 0])
        sizeof_input_event ⟨EV_KEY, 30, 0⟩ true).1).report.key
        = [] ++ ([5, 0, 0, 0, 0] ++ [0]) ∧
      leftPacked ([] ++ ([5, 0, 0, 0, 0] ++ [0])) = true :=
  C4_release_compaction (fun _ => 4) (keyStatus [4, 5, 0, 0, 0, 0])
    30 true [] [5, 0, 0, 0, 0]
    (by decide) (by decide) (by decide) (by decide) (by decide) (by decide)

/-- C5: a 2- or 3-byte inbound Data frame with final byte b makes the
frame interpreter issue exactly 5 LED-set requests in the fixed order
Num, Caps, Scroll, Compose, Kana, each with value the corresponding bit
of b, and send no reply byte. -/
theorem C5_led_fanout (st : Status) (buf : List Nat)
    (hlen : buf.length = 2 ∨ buf.length = 3)
    (hdata : buf.headD 0 &&& HIDP_HEADER_TRANS_MASK = HIDP_TRANS_DATA) :
    (btooth_command st (some buf)).ledWrites =
      [ (LED_NUML,
          if (buf.getD (buf.length - 1) 0).testBit 0 then 1 else 0),
        (LED_CAPSL,
          if (buf.getD (buf.length - 1) 0).testBit 1 then 1 else 0),
        (LED_SCROLLL,
          if (buf.getD (buf.length - 1) 0).testBit 2 then 1 else 0),
        (LED_COMPOSE,
          if (buf.getD (buf.length - 1) 0).testBit 3 then 1 else 0),
        (LED_KANA,
          if (buf.getD (buf.length - 1) 0).testBit 4 then 1 else 0) ] ∧
      (btooth_command st (some buf)).replies = [] := by
  have h0 : ¬ (buf.length = 0) := by rcases hlen with h | h <;> omega
  have hsp : ¬ (buf.headD 0 &&& HIDP_HEADER_TRANS_MASK
      = HIDP_TRANS_SET_PROTOCOL) := by
    rw [hdata]; decide
  have hcond : buf.headD 0 &&& HIDP_HEADER_TRANS_MASK = HIDP_TRANS_DATA
      ∧ (buf.length = 3 ∨ buf.length = 2) := ⟨hdata, Or.symm hlen⟩
  simp only [btooth_command, if_neg h0, if_neg hsp, if_pos hcond]
  refine ⟨?_, by trivial⟩
  unfold set_leds
  rw [led_bit _ 0 HIDP_NUML (by decide), led_bit _ 1 HIDP_CAPSL (by decide),
    led_bit _ 2 HIDP_SCROLLL (by decide),
    led_bit _ 3 HIDP_COMPOSE (by decide), led_bit _ 4 HIDP_KANA (by decide)]

theorem C5_led_fanout_witness :
    (btooth_command initStatus (some [0xa2, 0x07])).ledWrites =
      [ (LED_NUML,
          if (([0xa2, 0x07].getD ([0xa2, 0x07].length - 1) 0) : Nat).testBit 0
          then 1 else 0),
        (LED_CAPSL,
          if (([0xa2, 0x07].getD ([0xa2, 0x07].length - 1) 0) : Nat).testBit 1
          then 1 else 0),
        (LED_SCROLLL,
          if (([0xa2, 0x07].getD ([0xa2, 0x07].length - 1) 0) : Nat).testBit 2
          then 1 else 0),
        (LED_COMPOSE,
          if (([0xa2, 0x07].getD ([0xa2, 0x07].length - 1) 0) : Nat).testBit 3
          then 1 else 0),
        (LED_KANA,
          if (([0xa2, 0x07].getD ([0xa2, 0x07].length - 1) 0) : Nat).testBit 4
          then 1 else 0) ] ∧
      (btooth_command initStatus (some [0xa2, 0x07])).replies = [] :=
  C5_led_fanout initStatus [0xa2, 0x07] (Or.inl (by decide)) (by decide)

/-- C6: for an inbound frame of positive size, a Set-Protocol
transaction yields exactly one reply byte (Handshake success), an
unknown transaction type or a Data frame of unexpected length yields
exactly one reply byte (Handshake Err-Unknown) with a non-fatal return,
and a 2- or 3-byte Data frame yields no reply byte. -/
theorem C6_handshake (st : Status) (buf : List Nat)
    (hpos : 0 < buf.length) :
    ((buf.headD 0 &&& HIDP_HEADER_TRANS_MASK = HIDP_TRANS_SET_PROTOCOL →
      (btooth_command st (some buf)).replies =
          [HIDP_TRANS_HANDSHAKE ||| HIDP_HSHK_SUCCESSFUL] ∧
        (btooth_command st (some buf)).ret = 0) ∧
    ((buf.headD 0 &&& HIDP_HEADER_TRANS_MASK ≠ HIDP_TRANS_SET_PROTOCOL ∧
        buf.headD 0 &&& HIDP_HEADER_TRANS_MASK ≠ HIDP_TRANS_DATA) ∨
      (buf.headD 0 &&& HIDP_HEADER_TRANS_MASK = HIDP_TRANS_DATA ∧
        buf.length ≠ 2 ∧ buf.length ≠ 3) →
      (btooth_command st (some buf)).replies =
          [HIDP_TRANS_HANDSHAKE ||| HIDP_HSHK_ERR_UNKNOWN] ∧
        (btooth_command st (some buf)).ret = 0) ∧
    (buf.headD 0 &&& HIDP_HEADER_TRANS_MASK = HIDP_TRANS_DATA ∧
        (buf.length = 2 ∨ buf.length = 3) →
      (btooth_command st (some buf)).replies = [])) := by
  have h0 : ¬ (buf.length = 0) := by omega
  refine ⟨?_, ?_, ?_⟩
  · intro hsp
    simp only [btooth_command, if_neg h0, if_pos hsp]
    exact ⟨by trivial, by trivial⟩
  · intro h
    rcases h with ⟨hns, hnd⟩ | ⟨hd, h2, h3⟩
    · have hc2 : ¬ (buf.headD 0 &&& HIDP_HEADER_TRANS_MASK = HIDP_TRANS_DATA
          ∧ (buf.length = 3 ∨ buf.length = 2)) := fun hh => hnd hh.1
      simp only [btooth_command, if_neg h0, if_neg hns, if_neg hc2]
      exact ⟨by trivial, by trivial⟩
    · have hns : ¬ (buf.headD 0 &&& HIDP_HEADER_TRANS_MASK
          = HIDP_TRANS_SET_PROTOCOL) := by rw [hd]; decide
      have hc2 : ¬ (buf.headD 0 &&& HIDP_HEADER_TRANS_MASK = HIDP_TRANS_DATA
          ∧ (buf.length = 3 ∨ buf.length = 2)) := by
        intro hh
        rcases hh.2 with hl | hl
        · exact h3 hl
        · exact h2 hl
      simp only [btooth_command, if_neg h0, if_neg hns, if_neg hc2]
      exact ⟨by trivial, by trivial⟩
  · intro h
    have hns : ¬ (buf.headD 0 &&& HIDP_HEADER_TRANS_MASK
        = HIDP_TRANS_SET_PROTOCOL) := by rw [h.1]; decide
    have hc2 : buf.headD 0 &&& HIDP_HEADER_TRANS_MASK = HIDP_TRANS_DATA
        ∧ (buf.length = 3 ∨ buf.length = 2) :=
      ⟨h.1, Or.symm h.2⟩
    simp only [btooth_command, if_neg h0, if_neg hns, if_pos hc2]

theorem C6_handshake_witness :
    (([0x71].headD 0 &&& HIDP_HEADER_TRANS_MASK = HIDP_TRANS_SET_PROTOCOL →
      (btooth_command initStatus (some [0x71])).replies =
          [HIDP_TRANS_HANDSHAKE ||| HIDP_HSHK_SUCCESSFUL] ∧
        (btooth_command initStatus (some [0x71])).ret = 0) ∧
    (([0x71].headD 0 &&& HIDP_HEADER_TRANS_MASK ≠ HIDP_TRANS_SET_PROTOCOL ∧
        [0x71].headD 0 &&& HIDP_HEADER_TRANS_MASK ≠ HIDP_TRANS_DATA) ∨
      ([0x71].headD 0 &&& HIDP_HEADER_TRANS_MASK = HIDP_TRANS_DATA ∧
        ([0x71] : List Nat).length ≠ 2 ∧ ([0x71] : List Nat).length ≠ 3) →
      (btooth_command initStatus (some [0x71])).replies =
          [HIDP_TRANS_HANDSHAKE ||| HIDP_HSHK_ERR_UNKNOWN] ∧
        (btooth_command initStatus (some [0x71])).ret = 0) ∧
    ([0x71].headD 0 &&& HIDP_HEADER_TRANS_MASK = HIDP_TRANS_DATA ∧
        (([0x71] : List Nat).length = 2 ∨ ([0x71] : List Nat).length = 3) →
      (btooth_command initStatus (some [0x71])).replies = [])) :=
  C6_handshake initStatus [0x71] (by decide)

/-- C7 (counterexample): the code classifies a zero-sized read from the
event device as a badly-sized read, although the claim says a zero-sized
read does not raise MalformedEventError. -/
theorem C7_zero_read_counterexample :
    classify_input_read 0 = ReadOutcome.malformed ∧
      (0 : Int) ≠ sizeof_input_event ∧ ¬ ((0 : Int) < 0) := by
  refine ⟨rfl, by decide, by decide⟩

/-- C7 (amended): for the sizes the read call can actually return (-1 or
nonnegative), the read-error branch fires exactly on the negative size
-1, and the badly-sized branch fires exactly on a nonnegative size
different from the fixed event-record size -- including zero. -/
theorem C7_read_classification (size : Int)
    (hdom : size = -1 ∨ 0 ≤ size) :
    (classify_input_read size = ReadOutcome.readErr ↔ size < 0) ∧
      (classify_input_read size = ReadOutcome.malformed ↔
        0 ≤ size ∧ size ≠ sizeof_input_event) ∧
      (classify_input_read size = ReadOutcome.proceed ↔
        size = sizeof_input_event) := by
  rcases hdom with rfl | hnn
  · decide
  · have h1 : size ≠ -1 := by omega
    unfold classify_input_read
    rw [if_neg h1]
    by_cases h2 : size = sizeof_input_event
    · rw [if_pos h2]
      have hpos : ¬ (size < 0) := by
        rw [h2]; decide
      refine ⟨⟨fun h => by simp at h, fun h => absurd h hpos⟩,
        ⟨fun h => by simp at h, fun h => absurd h2 h.2⟩,
        ⟨fun _ => h2, fun _ => rfl⟩⟩
    · rw [if_neg h2]
      refine ⟨⟨fun h => by simp at h, fun h => by omega⟩,
        ⟨fun _ => ⟨hnn, h2⟩, fun _ => rfl⟩,
        ⟨fun h => by simp at h, fun h => absurd h h2⟩⟩

theorem C7_read_classification_witness :
    (classify_input_read 0 = ReadOutcome.readErr ↔ (0 : Int) < 0) ∧
      (classify_input_read 0 = ReadOutcome.malformed ↔
        (0 : Int) ≤ 0 ∧ (0 : Int) ≠ sizeof_input_event) ∧
      (classify_input_read 0 = ReadOutcome.proceed ↔
        (0 : Int) = sizeof_input_event) :=
  C7_read_classification 0 (Or.inr (by decide))

/-- C8: the code never closes the opened descriptor on any input_open
failure path; in particular, when every step up to the autorepeat
configuration succeeds and that configuration fails, input_open returns
failure having performed zero close calls, contradicting the required
release of the descriptor. -/
theorem C8_setup_leak :
    (∀ env : InputOpenEnv, (input_open env).2 = 0) ∧
      input_open ⟨true, true, EV_VERSION, true, EV_KEY, true, false⟩ =
        (false, 0) := by
  constructor
  · intro env
    unfold input_open
    repeat' first
    | rfl
    | split
    | dsimp only
  · decide

/-- C9: the session entry point returns false exactly when setup fails
before the main loop (input_open failure or either l2cap_listen
failure), and true otherwise, whatever happens inside the loop. -/
theorem C9_session_result (o si sc tAny : Bool) (l2h : Nat → Nat)
    (steps : List LoopStep) :
    (session o si sc tAny l2h steps).1 = true ↔
      (o = true ∧ si = true ∧ sc = true) := by
  cases o <;> cases si <;> cases sc <;> simp [session]

/-- C10: the frame interpreter never modifies the keyboard state, and
the stored LED bitmask field keeps its initial zero value for the whole
session. -/
theorem C10_frame_no_state_change :
    (∀ (st : Status) (res : Option (List Nat)),
        (btooth_command st res).status = st) ∧
      (∀ (l2h : Nat → Nat) (tAny : Bool) (steps : List LoopStep),
        (runLoop l2h tAny initLoopState steps).status.leds = 0) := by
  constructor
  · exact btooth_command_status
  · intro l2h tAny steps
    exact runLoop_leds l2h tAny steps initLoopState

end Btkbdd
